import Mathlib

/-
Verification development for the DirectShow capture-side frame pipeline
(libavdevice/dshow.c): the bounded capture queue, its admission control
(shall_we_drop), the producer callback, the consumer read loop
(dshow_read_packet), the media-event drain (dshow_check_event_queue),
the play/pause control plane (dshow_control_message) and teardown
(dshow_read_close).

The embedding is shallow: each C function is translated to a Lean
function over an explicit state record.  The mutex makes the producer's
locked section and the consumer's locked section atomic with respect to
each other, so an interleaving of the two threads is modelled as a
sequence of atomic steps (`Evt` / `runTrace`).  Machine integers:
`video_frame_num` is a C `unsigned int`, modelled as a `Nat` kept below
2^32 by explicit `% 2^32`; `curbufsize[]` entries are `int64_t`,
modelled as `Int` (no overflow is reachable at realistic sizes);
`s->max_picture_buffer` is an `unsigned int`, modelled as `Nat`.
C division by zero (undefined behaviour) is modelled by `Option`:
a computation that would divide by zero returns `none`.

The struct `dshow_ctx` itself is declared in dshow_capture.h, which is
not part of this source tree; its fields are typed here from their uses
in dshow.c (and the known layout of the header).
-/

namespace DshowSpec

/-- DirectShow event codes consumed by dshow_check_event_queue
(values from the DirectShow SDK headers; only membership in the
terminal set matters). -/
def EC_COMPLETE : Nat := 0x01

def EC_ERRORABORT : Nat := 0x03

def EC_DEVICE_LOST : Nat := 0x1f

/-- AVERROR(EIO) = -5 : returned by dshow_read_packet once eof is latched. -/
def eioErr : Int := -5

/-- AVERROR(EAGAIN) = -11 : the WouldBlock return of dshow_read_packet. -/
def eagainErr : Int := -11

/-- AVERROR(ENOSYS) = -38 : returned by dshow_control_message for an
unsupported message type. -/
def enosysErr : Int := -38

/-- The modulus 2^32 of C `unsigned int` arithmetic. -/
def uintMod : Nat := 2 ^ 32

/-- One element of the packet list: the fields of the AVPacket stored in
a PacketListEntry by `callback` (stream index, byte length, pts).  The
byte buffer contents are irrelevant to every claim and are not modelled. -/
structure Pkt where
  stream_index : Nat
  size : Nat
  pts : Int
deriving DecidableEq, Repr

/-- The portion of `struct dshow_ctx` (plus `s->max_picture_buffer` and
the pending IMediaEvent status queue) that the capture-queue code reads
and writes.  `pktl` is the singly linked packet list, head first.
`event1` is the signalled/clear state of the data-available event
`ctx->event[1]`.  `mediaEvents` is the queue of pending status codes
that IMediaEvent_GetEvent drains. -/
structure DshowState where
  pktl : List Pkt
  curbufsize : Nat → Int
  video_frame_num : Nat
  eof : Bool
  event1 : Bool
  mediaEvents : List Nat
  max_picture_buffer : Nat
  is_running : Bool

/-- The state after dshow_read_header succeeds: priv_data is zeroed by
the allocator, curbufsize[0] = curbufsize[1] = 0 is set explicitly, and
is_running = 1 after IMediaControl_Run is confirmed. -/
def initState (maxbuf : Nat) : DshowState :=
  { pktl := []
    curbufsize := fun _ => 0
    video_frame_num := 0
    eof := false
    event1 := false
    mediaEvents := []
    max_picture_buffer := maxbuf
    is_running := true }

/-- static const uint8_t dropscore[] = {62, 75, 87, 100}; -/
def dropscore : List Nat := [62, 75, 87, 100]

/-- The value `(ctx->curbufsize[index]*100)/s->max_picture_buffer` as
stored into the C `unsigned int buffer_fullness` (int64 multiply,
truncating division, then conversion to unsigned int, i.e. mod 2^32),
defined only for a nonzero divisor. -/
def fullnessVal (s : DshowState) (index : Nat) : Nat :=
  (((s.curbufsize index * 100).tdiv (s.max_picture_buffer : Int)).emod
    ((uintMod : Nat) : Int)).toNat

/-- unsigned int buffer_fullness = (ctx->curbufsize[index]*100)/s->max_picture_buffer;
`none` models the C division by zero (undefined behaviour) when
max_picture_buffer = 0. -/
def buffer_fullness (s : DshowState) (index : Nat) : Option Nat :=
  if s.max_picture_buffer = 0 then none else some (fullnessVal s index)

/-- shall_we_drop (dshow.c lines 365-381): computes buffer_fullness,
pre-increments the shared counter ctx->video_frame_num (unsigned int,
so mod 2^32) and drops iff dropscore[counter % 4] <= buffer_fullness.
Returns the drop decision together with the updated state; `none`
models the divide-by-zero crash when max_picture_buffer = 0 (which in
the C code occurs before the increment is sequenced with anything
observable). -/
def shall_we_drop (s : DshowState) (index : Nat) : Option (Bool × DshowState) :=
  match buffer_fullness s index with
  | none => none
  | some fullness =>
      let n := (s.video_frame_num + 1) % uintMod
      some (decide (dropscore.getD (n % 4) 0 ≤ fullness),
        { s with video_frame_num := n })

/-- callback (dshow.c lines 383-421), the producer's locked section.
`nodeAllocOk` models the av_mallocz of the list node and `pktAllocOk`
the av_new_packet of the packet buffer; on either failure, or on a drop
decision, the function releases the mutex and returns with no change
other than the counter increment performed inside shall_we_drop.  On
success the new entry is appended at the tail (the for-loop walks
ppktl to the end), curbufsize[index] is increased, and event[1] is set. -/
def callback (s : DshowState) (index : Nat) (buf_size : Nat) (time : Int)
    (nodeAllocOk pktAllocOk : Bool) : Option DshowState :=
  match shall_we_drop s index with
  | none => none
  | some (drop, s1) =>
      if drop then some s1
      else if !nodeAllocOk then some s1
      else if !pktAllocOk then some s1
      else some
        { s1 with
          pktl := s1.pktl ++ [⟨index, buf_size, time⟩]
          curbufsize := fun j =>
            if j = index then s1.curbufsize j + (buf_size : Int)
            else s1.curbufsize j
          event1 := true }

/-- Bool test for membership of a status code in the terminal set
{EC_COMPLETE, EC_DEVICE_LOST, EC_ERRORABORT}. -/
def isTerminalCode (c : Nat) : Bool :=
  c == EC_COMPLETE || c == EC_DEVICE_LOST || c == EC_ERRORABORT

/-- dshow_check_event_queue (dshow.c lines 2117-2130): drains every
pending event; ret starts 0 and becomes -1 when a terminal code is seen
(and stays -1, since no branch resets it). -/
def dshow_check_event_queue (events : List Nat) : Int :=
  events.foldl (fun r c => if isTerminalCode c then -1 else r) 0

/-- The possible outcomes of one call to dshow_read_packet.  `packet p`
is a positive return with `*pkt` filled; `wouldBlock` is
AVERROR(EAGAIN); `eofResult` is AVERROR(EIO) with ctx->eof latched;
`blocked` marks the call parking in WaitForMultipleObjects (the retry
after wakeup is modelled as a fresh read step). -/
inductive ReadResult where
  | packet (p : Pkt)
  | wouldBlock
  | eofResult
  | blocked
deriving DecidableEq, Repr

/-- dshow_read_packet (dshow.c lines 2132-2160), one trip through the
loop.  If ctx->eof is already set the loop body never runs and
AVERROR(EIO) is returned with the state untouched.  Otherwise the
locked section pops the head if present (decrementing
curbufsize[stream_index]) and unconditionally resets event[1]; if no
packet was found the media-event queue is drained, a terminal code
latches eof (the loop then exits with AVERROR(EIO)), a non-blocking
caller gets AVERROR(EAGAIN) and a blocking caller waits on both
events. -/
def dshow_read_packet (s : DshowState) (nonblock : Bool) :
    ReadResult × DshowState :=
  if s.eof then (.eofResult, s)
  else
    match s.pktl with
    | p :: rest =>
        (.packet p,
          { s with
            pktl := rest
            curbufsize := fun j =>
              if j = p.stream_index then s.curbufsize j - (p.size : Int)
              else s.curbufsize j
            event1 := false })
    | [] =>
        let s1 := { s with event1 := false, mediaEvents := [] }
        if dshow_check_event_queue s.mediaEvents < 0 then
          (.eofResult, { s1 with eof := true })
        else if nonblock then (.wouldBlock, s1)
        else (.blocked, s1)

/-- An atomic step of the pipeline: `arrive` is one invocation of the
producer `callback` (with the outcome of its two allocations),
`statusEvt` is the device layer posting a status code on the
IMediaEvent queue, and `readStep` is one trip through the
dshow_read_packet loop by the consumer.  The mutex serialises the
producer's and consumer's critical sections, so every interleaving of
the two threads is some list of these steps. -/
inductive Evt where
  | arrive (index : Nat) (buf_size : Nat) (time : Int) (nodeAllocOk pktAllocOk : Bool)
  | statusEvt (code : Nat)
  | readStep (nonblock : Bool)

/-- Apply one atomic step; a read step also yields its ReadResult. -/
def stepEvt (s : DshowState) : Evt → Option (DshowState × Option ReadResult)
  | .arrive index buf_size time nodeAllocOk pktAllocOk =>
      match callback s index buf_size time nodeAllocOk pktAllocOk with
      | none => none
      | some s' => some (s', none)
  | .statusEvt code =>
      some ({ s with mediaEvents := s.mediaEvents ++ [code] }, none)
  | .readStep nonblock =>
      let rs := dshow_read_packet s nonblock
      some (rs.2, some rs.1)

/-- Run a list of atomic steps, collecting the results of the read
steps and the list of frames actually admitted (appended to the packet
list) along the way, in order. -/
def runTrace (s : DshowState) : List Evt →
    Option (DshowState × List ReadResult × List Pkt)
  | [] => some (s, [], [])
  | e :: es =>
      match stepEvt s e with
      | none => none
      | some (s1, r) =>
          match runTrace s1 es with
          | none => none
          | some (s2, res, adm) =>
              some (s2, r.toList ++ res, s1.pktl.drop s.pktl.length ++ adm)

/-- The packets a list of read results delivered to the consumer, in
order. -/
def delivered (res : List ReadResult) : List Pkt :=
  res.filterMap fun r =>
    match r with
    | .packet p => some p
    | _ => none

/-- Sum of the sizes of the queued entries belonging to stream `i`
(the quantity ctx->curbufsize[i] is meant to track). -/
def streamBytes (i : Nat) : List Pkt → Int
  | [] => 0
  | p :: rest =>
      (if p.stream_index = i then (p.size : Int) else 0) + streamBytes i rest

/-- HRESULT values distinguished by dshow_control_message: S_OK,
S_FALSE (transition pending, triggers one IMediaControl_GetState poll),
and any failure code. -/
inductive HRes where
  | sOk
  | sFalse
  | failed
deriving DecidableEq, Repr

/-- The device-side responses the control plane may receive: the
HRESULT of IMediaControl_Run, of IMediaControl_Pause, and of the
IMediaControl_GetState poll. -/
structure DeviceCtl where
  runRes : HRes
  pauseRes : HRes
  getStateRes : HRes
deriving DecidableEq, Repr

/-- The AVAppToDevMessageType values dshow_control_message handles:
pause, play, toggle pause, the dialog request (which never touches the
run state and returns 0) and any unsupported type (AVERROR(ENOSYS)). -/
inductive CtlMsg where
  | pause
  | play
  | togglePause
  | config
  | unsupported
deriving DecidableEq, Repr

/-- The confirmation dance of dshow_control_message lines 1780-1792:
the Run/Pause HRESULT, with S_FALSE replaced by one GetState poll. -/
def confirmHr (hr poll : HRes) : HRes :=
  if hr = .sFalse then poll else hr

/-- dshow_control_message (dshow.c lines 1695-1797) restricted to its
effect on the run state.  run_state is computed from the message; if it
differs from ctx->is_running the device command is issued and
synchronously confirmed (one extra GetState poll on S_FALSE); on
confirmation failure AVERROR(EIO) is returned and ctx->is_running is
left unchanged; only on confirmed success is it updated. -/
def dshow_control_message (s : DshowState) (dev : DeviceCtl) (msg : CtlMsg) :
    Int × DshowState :=
  let run_state : Bool :=
    match msg with
    | .pause => false
    | .play => true
    | .togglePause => !s.is_running
    | .config => s.is_running
    | .unsupported => s.is_running
  let ret : Int := match msg with | .unsupported => enosysErr | _ => 0
  if run_state ≠ s.is_running then
    let hr := confirmHr (if run_state then dev.runRes else dev.pauseRes)
      dev.getStateRes
    if hr ≠ .sOk then (eioErr, s)
    else (ret, { s with is_running := run_state })
  else (ret, s)

/-- The resources dshow_read_close releases, each modelled by a Bool
saying whether the handle/pointer is currently non-null, plus the
packet list still queued.  A freshly allocated (zeroed) context has
every field false/empty; partial initialization sets some of them. -/
structure CloseState where
  graph_builder2_v : Bool
  graph_builder2_a : Bool
  control : Bool
  media_event : Bool
  graph : Bool
  capture_pin_v : Bool
  capture_pin_a : Bool
  capture_filter_v : Bool
  capture_filter_a : Bool
  device_pin_v : Bool
  device_pin_a : Bool
  device_filter_v : Bool
  device_filter_a : Bool
  device_name_v : Bool
  device_name_a : Bool
  device_unique_name_v : Bool
  device_unique_name_a : Bool
  mutex : Bool
  event0 : Bool
  event1 : Bool
  pktl : List Pkt
deriving DecidableEq, Repr

/-- Releasing a COM/Win32 handle: calling Release/CloseHandle on a null
handle is a crash, modelled as `none`. -/
def releaseRes (h : Bool) : Option Unit :=
  if h then some () else none

/-- The `if (x) Release(x);` pattern used throughout dshow_read_close:
the release only happens when the handle is non-null. -/
def guardedRelease (h : Bool) : Option Unit :=
  if h then releaseRes h else some ()

/-- The state dshow_read_close leaves behind: every handle null, the
packet list empty. -/
def closedState : CloseState :=
  { graph_builder2_v := false, graph_builder2_a := false
    control := false, media_event := false, graph := false
    capture_pin_v := false, capture_pin_a := false
    capture_filter_v := false, capture_filter_a := false
    device_pin_v := false, device_pin_a := false
    device_filter_v := false, device_filter_a := false
    device_name_v := false, device_name_a := false
    device_unique_name_v := false, device_unique_name_a := false
    mutex := false, event0 := false, event1 := false
    pktl := [] }

/-- dshow_read_close (dshow.c lines 258-353): releases every resource
behind a null guard (av_freep of the names is null-safe by contract),
nulls each field, walks the remaining packet list unreffing and freeing
every entry, and returns 0.  The result carries the return value, the
final state, and the list of packet entries that were freed by the
drain loop; `none` would model a crash (a release of a null handle),
which the guards make unreachable. -/
def releaseAll : List Bool → Option Unit
  | [] => some ()
  | h :: rest => (guardedRelease h).bind fun _ => releaseAll rest

/-- The handles dshow_read_close releases, in source order (lines
264-339): the two graph builders, the media control (stopped then
released), the media event interface, the graph, the capture pins and
filters, the device pins and filters, then the mutex and the two event
handles.  The av_freep calls on the four name strings are null-safe by
contract and cannot crash, so they carry no guard. -/
def closeReleaseOrder (s : CloseState) : List Bool :=
  [s.graph_builder2_v, s.graph_builder2_a, s.control, s.media_event,
   s.graph, s.capture_pin_v, s.capture_pin_a, s.capture_filter_v,
   s.capture_filter_a, s.device_pin_v, s.device_pin_a,
   s.device_filter_v, s.device_filter_a, s.mutex, s.event0, s.event1]

def dshow_read_close (s : CloseState) : Option (Int × CloseState × List Pkt) :=
  (releaseAll (closeReleaseOrder s)).bind fun _ =>
  some (0, closedState, s.pktl)

/-- The drop decision shall_we_drop makes, without its state update. -/
def dropDecision (s : DshowState) (i : Nat) : Option Bool :=
  (shall_we_drop s i).map Prod.fst

/-- The state after k consecutive arrivals on stream i in the spec's
held-fullness scenario: each arrival runs shall_we_drop, which advances
the shared counter; curbufsize (hence the fullness) stays constant
because no enqueue is performed. -/
def afterArrivals (s : DshowState) (i : Nat) : Nat → DshowState
  | 0 => s
  | k + 1 =>
      match shall_we_drop (afterArrivals s i k) i with
      | none => afterArrivals s i k
      | some (_, s') => s'

/-- A reachable-shaped state with two packets queued (streams 0 and 1)
and the data-available event set. -/
def twoPktState : DshowState :=
  { initState 200 with
    pktl := [⟨0, 5, 0⟩, ⟨1, 3, 1⟩]
    curbufsize := fun j => if j = 0 then 5 else if j = 1 then 3 else 0
    event1 := true }

/-- An empty-queue state with one pending non-terminal status code. -/
def idleState : DshowState :=
  { initState 200 with mediaEvents := [0x40], event1 := true }

/-- A state whose buffer is exactly full (fullness 100), where every
threshold of the schedule drops. -/
def fullState : DshowState :=
  { initState 100 with curbufsize := fun _ => 100 }

/-- A state at fullness 50 (curbufsize 100 of max 200). -/
def halfFullState : DshowState :=
  { initState 200 with curbufsize := fun _ => 100 }

/-- A state at fullness 90 (curbufsize 180 of max 200). -/
def ninetyState : DshowState :=
  { initState 200 with curbufsize := fun _ => 180 }

/-- An eof-latched state that still has a packet queued and a pending
status code: reads must keep returning AVERROR(EIO) from here. -/
def eofState : DshowState :=
  { initState 200 with
    eof := true
    pktl := [⟨0, 7, 2⟩]
    curbufsize := fun j => if j = 0 then 7 else 0
    mediaEvents := [EC_COMPLETE] }

/-- A concrete interleaving: two admitted arrivals, a read, a status
post, and two more reads. -/
def fifoTrace : List Evt :=
  [.arrive 0 5 0 true true, .arrive 1 3 1 true true, .readStep true,
   .statusEvt 0x40, .readStep true, .readStep true]

/-- The run of fifoTrace from a fresh pipeline. -/
def fifoOut : DshowState × List ReadResult × List Pkt :=
  (runTrace (initState 200) fifoTrace).getD (initState 0, [], [])

/-- A trace from the eof-latched state: reads interleaved with further
producer activity. -/
def eofTrace : List Evt :=
  [.readStep false, .arrive 0 4 3 true true, .statusEvt 0x40, .readStep true,
   .readStep false]

/-- The run of eofTrace from the eof-latched state. -/
def eofOut : DshowState × List ReadResult × List Pkt :=
  (runTrace eofState eofTrace).getD (initState 0, [], [])

/-! Helper lemmas. -/

lemma releaseAll_eq_some : ∀ l : List Bool, releaseAll l = some () := by
  intro l
  induction l with
  | nil => rfl
  | cons h t ih => cases h <;> simp [releaseAll, guardedRelease, releaseRes, ih]

lemma checkEventQueue_zero_of_no_terminal :
    ∀ l : List Nat, (∀ c ∈ l, isTerminalCode c = false) →
      dshow_check_event_queue l = 0 := by
  intro l h
  induction l with
  | nil => rfl
  | cons c t ih =>
      have hc := h c (List.mem_cons_self c t)
      have ht : ∀ c ∈ t, isTerminalCode c = false := fun x hx => h x (List.mem_cons_of_mem c hx)
      simpa [dshow_check_event_queue, hc] using ih ht

lemma shall_we_drop_eq (s : DshowState) (i : Nat) (h : s.max_picture_buffer ≠ 0) :
    shall_we_drop s i = some
      (decide (dropscore.getD (((s.video_frame_num + 1) % uintMod) % 4) 0 ≤
          fullnessVal s i),
       { s with video_frame_num := (s.video_frame_num + 1) % uintMod }) := by
  simp [shall_we_drop, buffer_fullness, h]

lemma streamBytes_append (i : Nat) (l1 l2 : List Pkt) :
    streamBytes i (l1 ++ l2) = streamBytes i l1 + streamBytes i l2 := by
  induction l1 with
  | nil => simp [streamBytes]
  | cons p t ih => simp [streamBytes, ih]; ring

/-- Outcome analysis of one callback invocation: either the frame was
dropped (packet list, counters, event and status queue untouched) or it
was enqueued at the tail with the stream's byte counter increased and
the data-available event set. -/
lemma callback_cases (s : DshowState) (i sz : Nat) (t : Int) (nOk pOk : Bool)
    (s' : DshowState) (h : callback s i sz t nOk pOk = some s') :
    (s'.pktl = s.pktl ∧ s'.curbufsize = s.curbufsize ∧ s'.event1 = s.event1 ∧
      s'.eof = s.eof ∧ s'.mediaEvents = s.mediaEvents) ∨
    (s'.pktl = s.pktl ++ [⟨i, sz, t⟩] ∧
      s'.curbufsize =
        (fun j => if j = i then s.curbufsize j + (sz : Int) else s.curbufsize j) ∧
      s'.event1 = true ∧ s'.eof = s.eof ∧ s'.mediaEvents = s.mediaEvents) := by
  by_cases hm : s.max_picture_buffer = 0
  · rw [callback] at h
    simp [shall_we_drop, buffer_fullness, hm] at h
  · rw [callback, shall_we_drop_eq s i hm] at h
    rcases hD : decide (dropscore.getD (((s.video_frame_num + 1) % uintMod) % 4) 0 ≤
        fullnessVal s i) with _ | _ <;> rw [hD] at h
    · cases nOk with
      | false =>
          simp at h
          subst h
          exact Or.inl ⟨rfl, rfl, rfl, rfl, rfl⟩
      | true =>
          cases pOk with
          | false =>
              simp at h
              subst h
              exact Or.inl ⟨rfl, rfl, rfl, rfl, rfl⟩
          | true =>
              simp at h
              subst h
              exact Or.inr ⟨rfl, rfl, rfl, rfl, rfl⟩
    · simp at h
      subst h
      exact Or.inl ⟨rfl, rfl, rfl, rfl, rfl⟩

/-- Per-step FIFO bookkeeping: what a step delivers, prepended to the
queue it leaves, equals the queue it found plus what it admitted. -/
lemma step_pktl (s : DshowState) (e : Evt) (s' : DshowState) (r : Option ReadResult)
    (h : stepEvt s e = some (s', r)) :
    delivered r.toList ++ s'.pktl = s.pktl ++ s'.pktl.drop s.pktl.length := by
  cases e with
  | arrive i sz t nOk pOk =>
      simp only [stepEvt] at h
      rcases hc : callback s i sz t nOk pOk with _ | sc <;> rw [hc] at h
      · exact absurd h (by simp)
      · simp only [Option.some.injEq, Prod.mk.injEq] at h
        obtain ⟨rfl, rfl⟩ := h
        rcases callback_cases s i sz t nOk pOk sc hc with
          ⟨hp, _, _, _, _⟩ | ⟨hp, _, _, _, _⟩ <;> rw [hp] <;>
          simp [delivered, List.drop_length, List.drop_left]
  | statusEvt c =>
      simp only [stepEvt, Option.some.injEq, Prod.mk.injEq] at h
      obtain ⟨rfl, rfl⟩ := h
      simp [delivered, List.drop_length]
  | readStep nb =>
      simp only [stepEvt, Option.some.injEq, Prod.mk.injEq] at h
      obtain ⟨rfl, rfl⟩ := h
      cases he : s.eof with
      | true => simp [dshow_read_packet, he, delivered, List.drop_length]
      | false =>
          cases hp : s.pktl with
          | cons p rest =>
              simp [dshow_read_packet, he, hp, delivered,
                List.drop_eq_nil_of_le]
          | nil =>
              simp only [dshow_read_packet, he, hp]
              rw [if_neg (by simp)]
              split
              · simp [delivered]
              · split <;> simp [delivered]

/-- Per-step preservation of the byte-counter invariant. -/
lemma step_inv (s : DshowState) (e : Evt) (s' : DshowState) (r : Option ReadResult)
    (h : stepEvt s e = some (s', r))
    (hi : ∀ i, s.curbufsize i = streamBytes i s.pktl) :
    ∀ i, s'.curbufsize i = streamBytes i s'.pktl := by
  cases e with
  | arrive i sz t nOk pOk =>
      simp only [stepEvt] at h
      rcases hc : callback s i sz t nOk pOk with _ | sc <;> rw [hc] at h
      · exact absurd h (by simp)
      · simp only [Option.some.injEq, Prod.mk.injEq] at h
        obtain ⟨rfl, rfl⟩ := h
        rcases callback_cases s i sz t nOk pOk sc hc with
          ⟨hp, hb, _, _, _⟩ | ⟨hp, hb, _, _, _⟩
        · intro j
          rw [hp, hb]
          exact hi j
        · intro j
          rw [hp, hb, streamBytes_append]
          by_cases hji : j = i
          · subst hji
            simp [streamBytes, hi j]
          · have hij : ¬i = j := fun hx => hji hx.symm
            simp [streamBytes, if_neg hji, if_neg hij, hi j]
  | statusEvt c =>
      simp only [stepEvt, Option.some.injEq, Prod.mk.injEq] at h
      obtain ⟨rfl, rfl⟩ := h
      exact hi
  | readStep nb =>
      simp only [stepEvt, Option.some.injEq, Prod.mk.injEq] at h
      obtain ⟨rfl, rfl⟩ := h
      cases he : s.eof with
      | true => simpa [dshow_read_packet, he] using hi
      | false =>
          cases hp : s.pktl with
          | nil =>
              intro j
              have := hi j
              rw [hp] at this
              simp only [dshow_read_packet, he, hp]
              rw [if_neg (by simp)]
              split <;> [skip; split] <;> simpa [streamBytes] using this
          | cons p rest =>
              intro j
              have hj := hi j
              rw [hp] at hj
              simp only [dshow_read_packet, he, hp]
              rw [if_neg (by simp)]
              show (if j = p.stream_index then s.curbufsize j - (p.size : Int)
                  else s.curbufsize j) = streamBytes j rest
              simp only [streamBytes] at hj
              by_cases hjp : j = p.stream_index
              · subst hjp
                rw [if_pos rfl]
                rw [if_pos rfl] at hj
                omega
              · rw [if_neg hjp]
                rw [if_neg (fun hx => hjp hx.symm)] at hj
                simpa using hj

/-- Per-step stickiness of the eof flag, and the fact that a read from
an eof state yields AVERROR(EIO). -/
lemma step_eof (s : DshowState) (e : Evt) (s' : DshowState) (r : Option ReadResult)
    (h : stepEvt s e = some (s', r)) (he : s.eof = true) :
    s'.eof = true ∧ ∀ x, r = some x → x = ReadResult.eofResult := by
  cases e with
  | arrive i sz t nOk pOk =>
      simp only [stepEvt] at h
      rcases hc : callback s i sz t nOk pOk with _ | sc <;> rw [hc] at h
      · exact absurd h (by simp)
      · simp only [Option.some.injEq, Prod.mk.injEq] at h
        obtain ⟨rfl, rfl⟩ := h
        rcases callback_cases s i sz t nOk pOk sc hc with
          ⟨_, _, _, hf, _⟩ | ⟨_, _, _, hf, _⟩ <;>
          exact ⟨hf.trans he, fun x hx => by cases hx⟩
  | statusEvt c =>
      simp only [stepEvt, Option.some.injEq, Prod.mk.injEq] at h
      obtain ⟨rfl, rfl⟩ := h
      exact ⟨he, fun x hx => by cases hx⟩
  | readStep nb =>
      simp only [stepEvt, Option.some.injEq, Prod.mk.injEq] at h
      obtain ⟨rfl, rfl⟩ := h
      refine ⟨by simp [dshow_read_packet, he], fun x hx => ?_⟩
      simp only [dshow_read_packet, he, if_pos] at hx
      simp only [Option.some.injEq] at hx
      simp [← hx]

/-- Along the held-fullness arrival sequence, curbufsize and
max_picture_buffer never change and the shared counter's residue mod 4
advances by one per arrival. -/
lemma afterArrivals_fields (s : DshowState) (i : Nat)
    (hm : s.max_picture_buffer ≠ 0) :
    ∀ k, (afterArrivals s i k).curbufsize = s.curbufsize ∧
      (afterArrivals s i k).max_picture_buffer = s.max_picture_buffer ∧
      (afterArrivals s i k).video_frame_num % 4 = (s.video_frame_num + k) % 4 := by
  intro k
  induction k with
  | zero => exact ⟨rfl, rfl, rfl⟩
  | succ k ih =>
      obtain ⟨hc, hmx, hv⟩ := ih
      have hm' : (afterArrivals s i k).max_picture_buffer ≠ 0 := by
        rw [hmx]; exact hm
      simp only [afterArrivals, shall_we_drop_eq (afterArrivals s i k) i hm']
      refine ⟨hc, hmx, ?_⟩
      simp only [uintMod] at hv ⊢
      omega

/-- The admission decision at the k-th held-fullness arrival is the
schedule threshold at residue (counter + k + 1) mod 4 compared against
the constant fullness. -/
lemma dropDecision_afterArrivals (s : DshowState) (i : Nat)
    (hm : s.max_picture_buffer ≠ 0) (k : Nat) :
    dropDecision (afterArrivals s i k) i =
      some (decide (dropscore.getD ((s.video_frame_num + k + 1) % 4) 0 ≤
        fullnessVal s i)) := by
  obtain ⟨hc, hmx, hv⟩ := afterArrivals_fields s i hm k
  have hm' : (afterArrivals s i k).max_picture_buffer ≠ 0 := by
    rw [hmx]; exact hm
  rw [dropDecision, shall_we_drop_eq (afterArrivals s i k) i hm']
  have hful : fullnessVal (afterArrivals s i k) i = fullnessVal s i := by
    simp only [fullnessVal, hc, hmx]
  have hidx : ((afterArrivals s i k).video_frame_num + 1) % uintMod % 4 =
      (s.video_frame_num + k + 1) % 4 := by
    simp only [uintMod] at hv ⊢
    omega
  simp only [Option.map_some', hful, hidx]

/-- At constant fullness 50 no threshold of the schedule fires. -/
lemma countP_schedule_fifty (n : Nat) :
    ((List.range 4).countP fun k =>
      decide (dropscore.getD ((n + k + 1) % 4) 0 ≤ 50)) = 0 := by
  rw [List.countP_eq_zero]
  intro k _
  have h4 : (n + k + 1) % 4 = 0 ∨ (n + k + 1) % 4 = 1 ∨
      (n + k + 1) % 4 = 2 ∨ (n + k + 1) % 4 = 3 := by omega
  rcases h4 with h | h | h | h <;> simp [h, dropscore]

/-- At constant fullness 90 exactly the three thresholds 62, 75, 87
fire in every window of four consecutive arrivals. -/
lemma countP_schedule_ninety (n : Nat) :
    ((List.range 4).countP fun k =>
      decide (dropscore.getD ((n + k + 1) % 4) 0 ≤ 90)) = 3 := by
  have hr : List.range 4 = [0, 1, 2, 3] := rfl
  have h4 : n % 4 = 0 ∨ n % 4 = 1 ∨ n % 4 = 2 ∨ n % 4 = 3 := by omega
  rw [hr]
  simp only [List.countP_cons, List.countP_nil]
  rcases h4 with h | h | h | h
  · have e0 : (n + 0 + 1) % 4 = 1 := by omega
    have e1 : (n + 1 + 1) % 4 = 2 := by omega
    have e2 : (n + 2 + 1) % 4 = 3 := by omega
    have e3 : (n + 3 + 1) % 4 = 0 := by omega
    rw [e0, e1, e2, e3]
    decide
  · have e0 : (n + 0 + 1) % 4 = 2 := by omega
    have e1 : (n + 1 + 1) % 4 = 3 := by omega
    have e2 : (n + 2 + 1) % 4 = 0 := by omega
    have e3 : (n + 3 + 1) % 4 = 1 := by omega
    rw [e0, e1, e2, e3]
    decide
  · have e0 : (n + 0 + 1) % 4 = 3 := by omega
    have e1 : (n + 1 + 1) % 4 = 0 := by omega
    have e2 : (n + 2 + 1) % 4 = 1 := by omega
    have e3 : (n + 3 + 1) % 4 = 2 := by omega
    rw [e0, e1, e2, e3]
    decide
  · have e0 : (n + 0 + 1) % 4 = 0 := by omega
    have e1 : (n + 1 + 1) % 4 = 1 := by omega
    have e2 : (n + 2 + 1) % 4 = 2 := by omega
    have e3 : (n + 3 + 1) % 4 = 3 := by omega
    rw [e0, e1, e2, e3]
    decide

/-! Claim theorems. -/

/-- C4: on each arrival shall_we_drop advances the shared cyclic
counter and compares schedule[counter mod 4] against the fullness
percentage, dropping iff threshold <= fullness; consequently, at
constant fullness 50, none of any 4 consecutive arrivals is dropped,
and at constant fullness 90, exactly 3 of any 4 consecutive arrivals
are dropped. -/
theorem c4_cyclic_admission_schedule :
    (∀ (s : DshowState) (i : Nat), s.max_picture_buffer ≠ 0 →
      shall_we_drop s i = some
        (decide (dropscore.getD (((s.video_frame_num + 1) % uintMod) % 4) 0 ≤
            fullnessVal s i),
         { s with video_frame_num := (s.video_frame_num + 1) % uintMod })) ∧
    (∀ (s : DshowState) (i : Nat), s.max_picture_buffer ≠ 0 →
      fullnessVal s i = 50 →
      ((List.range 4).countP fun k =>
        decide (dropDecision (afterArrivals s i k) i = some true)) = 0) ∧
    (∀ (s : DshowState) (i : Nat), s.max_picture_buffer ≠ 0 →
      fullnessVal s i = 90 →
      ((List.range 4).countP fun k =>
        decide (dropDecision (afterArrivals s i k) i = some true)) = 3) := by
  refine ⟨fun s i hm => shall_we_drop_eq s i hm, ?_, ?_⟩
  · intro s i hm hful
    have hcg : ∀ k ∈ List.range 4,
        (decide (dropDecision (afterArrivals s i k) i = some true) = true) ↔
        (decide (dropscore.getD ((s.video_frame_num + k + 1) % 4) 0 ≤ 50) =
          true) := by
      intro k _
      rw [dropDecision_afterArrivals s i hm k, hful]
      simp
    rw [List.countP_congr hcg]
    exact countP_schedule_fifty s.video_frame_num
  · intro s i hm hful
    have hcg : ∀ k ∈ List.range 4,
        (decide (dropDecision (afterArrivals s i k) i = some true) = true) ↔
        (decide (dropscore.getD ((s.video_frame_num + k + 1) % 4) 0 ≤ 90) =
          true) := by
      intro k _
      rw [dropDecision_afterArrivals s i hm k, hful]
      simp
    rw [List.countP_congr hcg]
    exact countP_schedule_ninety s.video_frame_num

/-- Witness for C4: the schedule equation at the fresh pipeline, the
0-of-4 count at the 50%-full state, and the 3-of-4 count at the
90%-full state. -/
theorem c4_cyclic_admission_schedule_witness :
    (initState 200).max_picture_buffer ≠ 0 ∧
    halfFullState.max_picture_buffer ≠ 0 ∧ fullnessVal halfFullState 0 = 50 ∧
    ninetyState.max_picture_buffer ≠ 0 ∧ fullnessVal ninetyState 0 = 90 ∧
    shall_we_drop (initState 200) 0 = some
      (decide (dropscore.getD ((((initState 200).video_frame_num + 1) % uintMod) % 4) 0 ≤
          fullnessVal (initState 200) 0),
       { initState 200 with
         video_frame_num := ((initState 200).video_frame_num + 1) % uintMod }) ∧
    ((List.range 4).countP fun k =>
      decide (dropDecision (afterArrivals halfFullState 0 k) 0 = some true)) = 0 ∧
    ((List.range 4).countP fun k =>
      decide (dropDecision (afterArrivals ninetyState 0 k) 0 = some true)) = 3 :=
  ⟨by decide, by decide, by decide, by decide, by decide,
   c4_cyclic_admission_schedule.1 (initState 200) 0 (by decide),
   c4_cyclic_admission_schedule.2.1 halfFullState 0 (by decide) (by decide),
   c4_cyclic_admission_schedule.2.2 ninetyState 0 (by decide) (by decide)⟩

/-- C9: dshow_read_close is safe after any partial initialization and
idempotent: for every context state (however far construction got) it
returns 0 without releasing a null handle, frees exactly the queued
packet entries, and leaves the fully-cleared state; calling it again on
the cleared state again returns 0 and frees nothing. -/
theorem c9_close_idempotent_safe :
    ∀ s : CloseState,
      dshow_read_close s = some (0, closedState, s.pktl) ∧
      dshow_read_close closedState = some (0, closedState, []) := by
  intro s
  refine ⟨?_, rfl⟩
  simp [dshow_read_close, releaseAll_eq_some]

/-- C6 counterexample: with max_picture_buffer = 0 the buffer-fullness
computation of shall_we_drop divides by zero (modelled as none), so the
admission decision is not total at configured_max_buffer_bytes = 0,
contrary to the claim. -/
theorem c6_counterexample_div_by_zero :
    shall_we_drop (initState 0) 0 = none := rfl

/-- C6 amended: for every stream index and state, the admission
decision of shall_we_drop is defined (total) whenever
configured_max_buffer_bytes is nonzero; at zero the fullness
computation divides by zero. -/
theorem c6_admission_total_of_pos :
    ∀ (s : DshowState) (i : Nat), s.max_picture_buffer ≠ 0 →
      (shall_we_drop s i).isSome = true := by
  intro s i h
  simp [shall_we_drop, buffer_fullness, h]

/-- Witness for C6 at a concrete state with max_picture_buffer = 200. -/
theorem c6_admission_total_of_pos_witness :
    (initState 200).max_picture_buffer ≠ 0 ∧
    (shall_we_drop (initState 200) 0).isSome = true :=
  ⟨by decide, c6_admission_total_of_pos (initState 200) 0 (by decide)⟩

/-- C7 counterexample: a dequeue that pops the head while a second
entry remains queued nonetheless clears the data-available signal
(ResetEvent(ctx->event[1]) runs unconditionally in the read loop),
contradicting the claim that the signal is cleared only when the
dequeue leaves the queue empty. -/
theorem c7_counterexample_cleared_while_nonempty :
    (dshow_read_packet twoPktState false).2.pktl ≠ [] ∧
    (dshow_read_packet twoPktState false).2.event1 = false :=
  ⟨by decide, rfl⟩

/-- C7 amended: every pass of the read loop (any dequeue attempt while
eof is not latched) clears the data-available signal, whether or not
the dequeue leaves entries queued; the signal is re-set by the producer
on the next enqueue. -/
theorem c7_read_always_clears_signal :
    ∀ (s : DshowState) (nonblock : Bool), s.eof = false →
      (dshow_read_packet s nonblock).2.event1 = false := by
  intro s nb h
  cases hp : s.pktl with
  | cons p rest => simp [dshow_read_packet, h, hp]
  | nil =>
      simp only [dshow_read_packet, h, hp]
      rw [if_neg (by simp)]
      split
      · rfl
      · split <;> rfl

/-- Witness for C7 amended at the two-packet state. -/
theorem c7_read_always_clears_signal_witness :
    twoPktState.eof = false ∧
    (dshow_read_packet twoPktState false).2.event1 = false :=
  ⟨rfl, c7_read_always_clears_signal twoPktState false rfl⟩

/-- C8: a non-blocking read on an empty queue with no terminal status
pending returns AVERROR(EAGAIN) immediately (it never reaches the
blocking wait), and changes nothing a later read depends on: the packet
list, the per-stream byte counters and the eof flag are exactly those
of the input state (only the data-available event is reset and the
already-drained nonterminal status codes are consumed), so every packet
a subsequent blocking read would have returned is still returned. -/
theorem c8_nonblock_empty_wouldblock :
    ∀ s : DshowState, s.eof = false → s.pktl = [] →
      (∀ c ∈ s.mediaEvents, isTerminalCode c = false) →
      dshow_read_packet s true =
        (.wouldBlock, { s with event1 := false, mediaEvents := [] }) := by
  intro s he hp hne
  have h0 := checkEventQueue_zero_of_no_terminal s.mediaEvents hne
  simp [dshow_read_packet, he, hp, h0]

/-- Witness for C8 at the idle state (empty queue, one pending
non-terminal code). -/
theorem c8_nonblock_empty_wouldblock_witness :
    idleState.eof = false ∧ idleState.pktl = [] ∧
    (∀ c ∈ idleState.mediaEvents, isTerminalCode c = false) ∧
    dshow_read_packet idleState true =
      (.wouldBlock, { idleState with event1 := false, mediaEvents := [] }) :=
  ⟨rfl, rfl, by decide,
    c8_nonblock_empty_wouldblock idleState rfl rfl (by decide)⟩

/-- C5: a Toggle request while running issues the pause command,
confirms it synchronously (polling GetState once when the device
answers S_FALSE), and only then flips is_running to paused; a second
confirmed Toggle restores the original state exactly; if confirmation
fails the call returns AVERROR(EIO) and is_running is untouched, so no
partial transition is observable. -/
theorem c5_toggle_transitions :
    ∀ (s : DshowState) (dev dev2 : DeviceCtl),
      s.is_running = true →
      (confirmHr dev.pauseRes dev.getStateRes = .sOk →
        dshow_control_message s dev .togglePause =
          (0, { s with is_running := false }) ∧
        (confirmHr dev2.runRes dev2.getStateRes = .sOk →
          dshow_control_message { s with is_running := false } dev2 .togglePause =
            (0, s))) ∧
      (confirmHr dev.pauseRes dev.getStateRes ≠ .sOk →
        dshow_control_message s dev .togglePause = (eioErr, s)) := by
  intro s dev dev2 hrun
  constructor
  · intro hok
    constructor
    · simp [dshow_control_message, hrun, hok]
    · intro hok2
      cases s
      simp_all [dshow_control_message]
  · intro hfail
    simp [dshow_control_message, hrun, hfail]

/-- Witness for C5: concrete running pipeline, device confirming with
S_FALSE then S_OK on pause, S_OK on resume; and a failing device. -/
theorem c5_toggle_transitions_witness :
    (initState 200).is_running = true ∧
    confirmHr HRes.sFalse HRes.sOk = HRes.sOk ∧
    confirmHr HRes.sOk HRes.failed = HRes.sOk ∧
    confirmHr HRes.failed HRes.sOk ≠ HRes.sOk ∧
    (dshow_control_message (initState 200) ⟨.sOk, .sFalse, .sOk⟩ .togglePause =
      (0, { initState 200 with is_running := false }) ∧
     (confirmHr (DeviceCtl.mk .sOk .failed .sOk).runRes
          (DeviceCtl.mk .sOk .failed .sOk).getStateRes = .sOk →
       dshow_control_message { initState 200 with is_running := false }
           ⟨.sOk, .failed, .sOk⟩ .togglePause = (0, initState 200))) ∧
    dshow_control_message (initState 200) ⟨.sOk, .failed, .sOk⟩ .togglePause =
      (eioErr, initState 200) :=
  ⟨rfl, by decide, by decide, by decide,
    (c5_toggle_transitions (initState 200) ⟨.sOk, .sFalse, .sOk⟩
        ⟨.sOk, .failed, .sOk⟩ rfl).1 (by decide),
    (c5_toggle_transitions (initState 200) ⟨.sOk, .failed, .sOk⟩
        ⟨.sOk, .failed, .sOk⟩ rfl).2 (by decide)⟩

/-- C10: every drop performed by the producer callback — an admission
drop, a list-node allocation failure, or a packet-buffer allocation
failure — returns normally (no error channel exists) and leaves the
packet list, both per-stream byte counters, the data-available signal,
eof and the status queue exactly as they were; only the shared arrival
counter advanced (inside shall_we_drop). -/
theorem c10_drop_is_silent_noop :
    ∀ (s : DshowState) (i sz : Nat) (t : Int) (nodeOk pktOk : Bool),
      s.max_picture_buffer ≠ 0 →
      (dropDecision s i = some true ∨ nodeOk = false ∨ pktOk = false) →
      callback s i sz t nodeOk pktOk =
        some { s with video_frame_num := (s.video_frame_num + 1) % uintMod } := by
  intro s i sz t nOk pOk hm hcause
  rw [callback, shall_we_drop_eq s i hm]
  rcases hD : decide (dropscore.getD (((s.video_frame_num + 1) % uintMod) % 4) 0 ≤
      fullnessVal s i) with _ | _
  · rcases hcause with hdrop | hn | hp
    · rw [dropDecision, shall_we_drop_eq s i hm] at hdrop
      simp only [Option.map_some', Option.some.injEq] at hdrop
      rw [hdrop] at hD
      exact Bool.noConfusion hD
    · subst hn; simp
    · subst hp; cases nOk <;> simp
  · simp

/-- C1: over every interleaving of producer callbacks, status posts and
consumer reads, what the reads have delivered, followed by what is
still queued, is exactly the initial queue followed by the admitted
frames in admission order: the callback appends at the tail, read pops
only the head, so packets are returned in FIFO (admission) order. -/
theorem c1_fifo_order :
    ∀ (evts : List Evt) (s0 s1 : DshowState) (res : List ReadResult)
      (adm : List Pkt),
      runTrace s0 evts = some (s1, res, adm) →
      delivered res ++ s1.pktl = s0.pktl ++ adm := by
  intro evts
  induction evts with
  | nil =>
      intro s0 s1 res adm h
      simp only [runTrace, Option.some.injEq, Prod.mk.injEq] at h
      obtain ⟨rfl, rfl, rfl⟩ := h
      simp [delivered]
  | cons e es ih =>
      intro s0 s1 res adm h
      simp only [runTrace] at h
      rcases h1 : stepEvt s0 e with _ | ⟨sa, r⟩ <;> simp only [h1] at h
      · exact absurd h (by simp)
      · rcases h2 : runTrace sa es with _ | ⟨sb, res2, adm2⟩ <;> simp only [h2] at h
        · exact absurd h (by simp)
        · simp only [Option.some.injEq, Prod.mk.injEq] at h
          obtain ⟨rfl, rfl, rfl⟩ := h
          have hstep := step_pktl s0 e sa r h1
          have hrec := ih sa sb res2 adm2 h2
          calc delivered (r.toList ++ res2) ++ sb.pktl
              = delivered r.toList ++ (delivered res2 ++ sb.pktl) := by
                simp [delivered, List.filterMap_append]
            _ = delivered r.toList ++ (sa.pktl ++ adm2) := by rw [hrec]
            _ = (delivered r.toList ++ sa.pktl) ++ adm2 := by
                simp [List.append_assoc]
            _ = (s0.pktl ++ sa.pktl.drop s0.pktl.length) ++ adm2 := by rw [hstep]
            _ = s0.pktl ++ (sa.pktl.drop s0.pktl.length ++ adm2) := by
                simp [List.append_assoc]

/-- Witness for C1: a concrete interleaving (two admitted arrivals,
three reads, one status post) from a fresh pipeline delivers the two
frames in admission order. -/
theorem c1_fifo_order_witness :
    runTrace (initState 200) fifoTrace =
      some (fifoOut.1, fifoOut.2.1, fifoOut.2.2) ∧
    delivered fifoOut.2.1 ++ fifoOut.1.pktl = (initState 200).pktl ++ fifoOut.2.2 ∧
    fifoOut.2.1 = [.packet ⟨0, 5, 0⟩, .packet ⟨1, 3, 1⟩, .wouldBlock] ∧
    fifoOut.2.2 = [⟨0, 5, 0⟩, ⟨1, 3, 1⟩] :=
  ⟨rfl,
   c1_fifo_order fifoTrace (initState 200) fifoOut.1 fifoOut.2.1 fifoOut.2.2 rfl,
   by decide, by decide⟩

/-- C2: in every state reachable by any interleaving of callbacks and
reads from a state satisfying the invariant (in particular from the
fresh pipeline, whose counters are zero and whose queue is empty), the
per-stream byte counter curbufsize[i] equals the sum of the sizes of
the queued entries of stream i, for every stream index i. -/
theorem c2_curbufsize_invariant :
    ∀ (evts : List Evt) (s0 s1 : DshowState) (res : List ReadResult)
      (adm : List Pkt),
      (∀ i, s0.curbufsize i = streamBytes i s0.pktl) →
      runTrace s0 evts = some (s1, res, adm) →
      ∀ i, s1.curbufsize i = streamBytes i s1.pktl := by
  intro evts
  induction evts with
  | nil =>
      intro s0 s1 res adm hi h
      simp only [runTrace, Option.some.injEq, Prod.mk.injEq] at h
      obtain ⟨rfl, rfl, rfl⟩ := h
      exact hi
  | cons e es ih =>
      intro s0 s1 res adm hi h
      simp only [runTrace] at h
      rcases h1 : stepEvt s0 e with _ | ⟨sa, r⟩ <;> simp only [h1] at h
      · exact absurd h (by simp)
      · rcases h2 : runTrace sa es with _ | ⟨sb, res2, adm2⟩ <;> simp only [h2] at h
        · exact absurd h (by simp)
        · simp only [Option.some.injEq, Prod.mk.injEq] at h
          obtain ⟨rfl, rfl, rfl⟩ := h
          exact ih sa sb res2 adm2 (step_inv s0 e sa r h1 hi) h2

/-- Witness for C2: the invariant holds after the concrete fifoTrace
interleaving, checked at stream indices 0 and 1. -/
theorem c2_curbufsize_invariant_witness :
    (∀ i, (initState 200).curbufsize i = streamBytes i (initState 200).pktl) ∧
    runTrace (initState 200) fifoTrace =
      some (fifoOut.1, fifoOut.2.1, fifoOut.2.2) ∧
    fifoOut.1.curbufsize 0 = streamBytes 0 fifoOut.1.pktl ∧
    fifoOut.1.curbufsize 1 = streamBytes 1 fifoOut.1.pktl :=
  ⟨fun _ => rfl, rfl,
   c2_curbufsize_invariant fifoTrace (initState 200) fifoOut.1 fifoOut.2.1
     fifoOut.2.2 (fun _ => rfl) rfl 0,
   c2_curbufsize_invariant fifoTrace (initState 200) fifoOut.1 fifoOut.2.1
     fifoOut.2.2 (fun _ => rfl) rfl 1⟩

/-- C3: draining a terminal status code on an empty queue latches eof
and returns AVERROR(EIO); and once eof is latched, along every further
interleaving (reads blocking or not, arrivals, status posts) every read
returns AVERROR(EIO) — never WouldBlock, never a packet, never a block
— and eof stays latched. -/
theorem c3_eof_terminal_sticky :
    (∀ (s : DshowState) (nonblock : Bool),
      s.eof = false → s.pktl = [] →
      dshow_check_event_queue s.mediaEvents < 0 →
      dshow_read_packet s nonblock =
        (.eofResult, { s with event1 := false, mediaEvents := [], eof := true })) ∧
    (∀ (evts : List Evt) (s0 s1 : DshowState) (res : List ReadResult)
      (adm : List Pkt),
      s0.eof = true → runTrace s0 evts = some (s1, res, adm) →
      (res.all fun r => decide (r = ReadResult.eofResult)) = true ∧
        s1.eof = true) := by
  constructor
  · intro s nb he hp hterm
    simp [dshow_read_packet, he, hp, hterm]
  · intro evts
    induction evts with
    | nil =>
        intro s0 s1 res adm he h
        simp only [runTrace, Option.some.injEq, Prod.mk.injEq] at h
        obtain ⟨rfl, rfl, rfl⟩ := h
        exact ⟨rfl, he⟩
    | cons e es ih =>
        intro s0 s1 res adm he h
        simp only [runTrace] at h
        rcases h1 : stepEvt s0 e with _ | ⟨sa, r⟩ <;> simp only [h1] at h
        · exact absurd h (by simp)
        · rcases h2 : runTrace sa es with _ | ⟨sb, res2, adm2⟩ <;> simp only [h2] at h
          · exact absurd h (by simp)
          · simp only [Option.some.injEq, Prod.mk.injEq] at h
            obtain ⟨rfl, rfl, rfl⟩ := h
            obtain ⟨hsa, hr⟩ := step_eof s0 e sa r h1 he
            obtain ⟨hall, hfin⟩ := ih sa sb res2 adm2 hsa h2
            refine ⟨?_, hfin⟩
            rw [List.all_append, hall, Bool.and_true]
            cases r with
            | none => rfl
            | some x => simp [hr x rfl]

/-- Witness for C3: latching at a concrete empty-queue state holding a
pending EC_COMPLETE, and stickiness along a concrete trace from the
eof-latched state (a blocking read, an admitted arrival, a status post,
two more reads): every read result is AVERROR(EIO). -/
theorem c3_eof_terminal_sticky_witness :
    ({ initState 200 with mediaEvents := [EC_COMPLETE] } : DshowState).eof = false ∧
    dshow_check_event_queue
      ({ initState 200 with mediaEvents := [EC_COMPLETE] } : DshowState).mediaEvents < 0 ∧
    dshow_read_packet { initState 200 with mediaEvents := [EC_COMPLETE] } false =
      (.eofResult,
       { ({ initState 200 with mediaEvents := [EC_COMPLETE] } : DshowState) with
         event1 := false, mediaEvents := [], eof := true }) ∧
    eofState.eof = true ∧
    runTrace eofState eofTrace = some (eofOut.1, eofOut.2.1, eofOut.2.2) ∧
    (eofOut.2.1.all fun r => decide (r = ReadResult.eofResult)) = true ∧
    eofOut.2.1 = [.eofResult, .eofResult, .eofResult] :=
  ⟨rfl, by decide,
   c3_eof_terminal_sticky.1 { initState 200 with mediaEvents := [EC_COMPLETE] }
     false rfl rfl (by decide),
   rfl, rfl,
   (c3_eof_terminal_sticky.2 eofTrace eofState eofOut.1 eofOut.2.1 eofOut.2.2
     rfl rfl).1,
   by decide⟩

/-- Witness for C10: at the 100%-full state the admission decision is
a drop; the callback returns with only the counter advanced. -/
theorem c10_drop_is_silent_noop_witness :
    fullState.max_picture_buffer ≠ 0 ∧
    dropDecision fullState 0 = some true ∧
    callback fullState 0 9 0 true true =
      some { fullState with video_frame_num := (fullState.video_frame_num + 1) % uintMod } :=
  ⟨by decide, by decide,
    c10_drop_is_silent_noop fullState 0 9 0 true true (by decide) (Or.inl (by decide))⟩

end DshowSpec
